import Mathlib

/-!
Verification of the Public-Radio firmware core (src/Firmware/main.c) against
its natural-language specification.  The C program is shallowly embedded:
machine integers become `Nat` with explicit `% 2^w` truncation at the points
where the C code truncates, EEPROM and the si4702 shadow register array become
functions `Nat → Nat` from byte addresses to byte values, and the externally
visible behaviour of the boot / button / programming paths is recorded as
explicit event traces.
-/

/-- One bit step of the CRC-16 update used by the firmware.  Modelled from
avr-libc's documented `_crc16_update` (util/crc16.h), the routine the source
calls for every CRC computation: if the low bit is set, shift right and xor
with the reflected polynomial 0xA001, else just shift right. -/
def crcStep (c : Nat) : Nat :=
  if c % 2 = 1 then (c / 2) ^^^ 0xA001 else c / 2

/-- avr-libc `_crc16_update`: xor the byte into the low bits of the running
CRC, then run eight bit steps.  The byte parameter is a `uint8_t`, hence the
`% 256` truncation of the argument. -/
def crc16_update (crc a : Nat) : Nat :=
  crcStep (crcStep (crcStep (crcStep (crcStep (crcStep (crcStep (crcStep
    (crc ^^^ (a % 256)))))))))

/-- A `uint8_t` EEPROM cell read (avr-libc `eeprom_read_byte`): cells hold
bytes, so reads are truncated to 8 bits. -/
def eeprom_read_byte (e : Nat → Nat) (addr : Nat) : Nat :=
  e addr % 256

/-- avr-libc `eeprom_write_byte`: store a byte (truncated to 8 bits). -/
def eeprom_write_byte (e : Nat → Nat) (addr val : Nat) : Nat → Nat :=
  fun i => if i = addr then val % 256 else e i

/-- avr-libc `eeprom_write_word`: AVR is little-endian, the low byte goes to
`addr`, the high byte to `addr + 1`. -/
def eeprom_write_word (e : Nat → Nat) (addr val : Nat) : Nat → Nat :=
  eeprom_write_byte (eeprom_write_byte e addr (val % 256)) (addr + 1) (val / 256 % 256)

/-- avr-libc `eeprom_read_word`: little-endian 16-bit read. -/
def eeprom_read_word (e : Nat → Nat) (addr : Nat) : Nat :=
  (e addr % 256) + 256 * (e (addr + 1) % 256)

/-- Running the firmware's CRC loop over the `n` bytes starting at `base`
(`for (src = base; src < base + n; src++) crc = _crc16_update(crc, *src)`). -/
def crc_over (e : Nat → Nat) (base n : Nat) : Nat :=
  (List.range n).foldl (fun c i => crc16_update c (eeprom_read_byte e (base + i))) 0

/-- `check_param_crc` (main.c:448): run the CRC over all 16 bytes of a
parameter block, CRC field included; the result is 0 exactly when the stored
CRC is correct. -/
def check_param_crc (e : Nat → Nat) (base : Nat) : Nat :=
  crc_over e base 16

/-- `update_channel` (main.c:421): write the 2-byte channel at EEPROM address
3, recompute the CRC over bytes 0..13 of the working block, and store it at
address 14 (as a little-endian word). -/
def update_channel (e : Nat → Nat) (channel : Nat) : Nat → Nat :=
  let e1 := eeprom_write_word e 3 channel
  let crc := crc_over e1 0 14
  eeprom_write_word e1 14 crc

/-! ### Bit-level helper lemmas -/

theorem crcStep_double (k : Nat) : crcStep (2 * k) = k := by
  simp [crcStep, Nat.mul_mod_right, Nat.mul_div_cancel_left]

theorem testBit_mod_256 (n i : Nat) :
    (n % 256).testBit i = (decide (i < 8) && n.testBit i) := by
  have h := Nat.testBit_mod_two_pow n 8 i
  norm_num at h
  exact h

theorem mul_256_div_eq_shift (n : Nat) : 256 * (n / 256) = (n >>> 8) <<< 8 := by
  rw [Nat.shiftLeft_eq, Nat.shiftRight_eq_div_pow]
  norm_num
  omega

theorem xor_low_byte (n : Nat) : n ^^^ (n % 256) = 256 * (n / 256) := by
  apply Nat.eq_of_testBit_eq
  intro i
  rw [mul_256_div_eq_shift]
  by_cases h : i < 8
  · simp [Nat.testBit_xor, testBit_mod_256, h, Nat.testBit_shiftLeft,
      Nat.not_le.mpr h]
  · have h8 : 8 ≤ i := Nat.not_lt.mp h
    simp [Nat.testBit_xor, testBit_mod_256, h, Nat.testBit_shiftLeft,
      Nat.testBit_shiftRight, h8, Nat.add_sub_cancel' h8]

theorem or_split_byte (n : Nat) : 256 * (n / 256) ||| (n % 256) = n := by
  apply Nat.eq_of_testBit_eq
  intro i
  rw [mul_256_div_eq_shift]
  by_cases h : i < 8
  · simp [Nat.testBit_or, testBit_mod_256, h, Nat.testBit_shiftLeft,
      Nat.not_le.mpr h]
  · have h8 : 8 ≤ i := Nat.not_lt.mp h
    simp [Nat.testBit_or, testBit_mod_256, h, Nat.testBit_shiftLeft,
      Nat.testBit_shiftRight, h8, Nat.add_sub_cancel' h8]

theorem or_low_byte (q r : Nat) (hr : r < 256) : 256 * q ||| r = 256 * q + r := by
  have hq : (256 * q + r) / 256 = q := by omega
  have hrr : (256 * q + r) % 256 = r := by omega
  have := or_split_byte (256 * q + r)
  rw [hq, hrr] at this
  exact this

/-- Absorbing the CRC state's own low byte and shifting: one `crc16_update`
with the state's low byte turns state `c` into `c / 256`. -/
theorem crc16_update_low (c a : Nat) (ha : a % 256 = c % 256) :
    crc16_update c a = c / 256 := by
  unfold crc16_update
  rw [ha, xor_low_byte,
    show 256 * (c / 256) = 2*(2*(2*(2*(2*(2*(2*(2*(c / 256)))))))) by ring,
    crcStep_double, crcStep_double, crcStep_double, crcStep_double,
    crcStep_double, crcStep_double, crcStep_double, crcStep_double]

theorem crcStep_lt (c : Nat) (h : c < 65536) : crcStep c < 65536 := by
  unfold crcStep
  split
  · have h1 : c / 2 < 2 ^ 16 := by omega
    have h2 : (0xA001 : Nat) < 2 ^ 16 := by norm_num
    have := Nat.xor_lt_two_pow h1 h2
    simpa using this
  · omega

theorem crc16_update_lt (c a : Nat) (h : c < 65536) : crc16_update c a < 65536 := by
  unfold crc16_update
  have h0 : c ^^^ (a % 256) < 65536 := by
    have h1 : c < 2 ^ 16 := by omega
    have h2 : a % 256 < 2 ^ 16 := by
      have : a % 256 < 256 := Nat.mod_lt _ (by norm_num)
      omega
    have := Nat.xor_lt_two_pow h1 h2
    simpa using this
  exact crcStep_lt _ (crcStep_lt _ (crcStep_lt _ (crcStep_lt _ (crcStep_lt _
    (crcStep_lt _ (crcStep_lt _ (crcStep_lt _ h0)))))))

theorem crc_over_lt (e : Nat → Nat) (base n : Nat) : crc_over e base n < 65536 := by
  unfold crc_over
  induction n with
  | zero => simp
  | succ k ih =>
    rw [List.range_succ, List.foldl_append]
    exact crc16_update_lt _ _ ih

theorem crc_over_congr (e e' : Nat → Nat) (base n : Nat)
    (h : ∀ i, i < n → e (base + i) = e' (base + i)) :
    crc_over e base n = crc_over e' base n := by
  unfold crc_over
  induction n with
  | zero => simp
  | succ k ih =>
    rw [List.range_succ, List.foldl_append, List.foldl_append,
      ih (fun i hi => h i (Nat.lt_succ_of_lt hi))]
    simp [eeprom_read_byte, h k (Nat.lt_succ_self k)]

theorem crc_over_succ (e : Nat → Nat) (base n : Nat) :
    crc_over e base (n + 1) =
      crc16_update (crc_over e base n) (eeprom_read_byte e (base + n)) := by
  unfold crc_over
  rw [List.range_succ, List.foldl_append]
  rfl

/-- C4: for every 16-bit channel value and every prior contents of the working
block, after `update_channel` the stored trailing CRC matches the CRC
recomputed over the preceding bytes, so `check_param_crc` over the 16-byte
working block reports the block valid (returns 0). -/
theorem update_channel_check_param_crc (e : Nat → Nat) (channel : Nat) :
    check_param_crc (update_channel e channel) 0 = 0 := by
  unfold check_param_crc update_channel
  set e1 := eeprom_write_word e 3 channel with he1
  set C := crc_over e1 0 14 with hC
  set e2 := eeprom_write_word e1 14 C with he2
  have h14 : e2 14 = C % 256 := by
    simp [he2, eeprom_write_word, eeprom_write_byte]
  have h15 : e2 15 = C / 256 % 256 := by
    simp [he2, eeprom_write_word, eeprom_write_byte]
  have hlow : crc_over e2 0 14 = C := by
    rw [hC]
    apply crc_over_congr
    intro i hi
    simp only [he2, eeprom_write_word, eeprom_write_byte]
    simp [show i ≠ 15 by omega, show i ≠ 14 by omega]
  have hCb : C < 65536 := crc_over_lt e1 0 14
  rw [show (16 : Nat) = 14 + 1 + 1 by rfl, crc_over_succ, crc_over_succ, hlow]
  rw [show (0 : Nat) + 14 = 14 by rfl, show (0 : Nat) + (14 + 1) = 15 by rfl]
  rw [eeprom_read_byte, eeprom_read_byte, h14, h15]
  rw [crc16_update_low C (C % 256 % 256) (by omega)]
  rw [crc16_update_low (C / 256) (C / 256 % 256 % 256) (by omega)]
  omega

/-! ### Shadow register bank (main.c:178, 317-328) -/

/-- `si4702_register` (main.c:178): storage byte offset of each logical
register address 0x0-0xF inside the 32-byte shadow array.  The array is laid
out starting at logical register 0xA (the chip's read start address) so that
the write-relevant registers 0x2-0x7 are contiguous. -/
def regOffset : Nat → Nat
  | 0 => 12
  | 1 => 14
  | 2 => 16
  | 3 => 18
  | 4 => 20
  | 5 => 22
  | 6 => 24
  | 7 => 26
  | 8 => 28
  | 9 => 30
  | 10 => 0
  | 11 => 2
  | 12 => 4
  | 13 => 6
  | 14 => 8
  | 15 => 10
  | _ => 0

def REGISTER_02 : Nat := regOffset 2

def REGISTER_03 : Nat := regOffset 3

def REGISTER_04 : Nat := regOffset 4

def REGISTER_05 : Nat := regOffset 5

def REGISTER_07 : Nat := regOffset 7

/-- `get_shadow_reg` (main.c:319): `(shadow[reg] << 8) | shadow[reg + 1]`.
The shadow array cells are `uint8_t`, hence the `% 256` reads. -/
def get_shadow_reg (s : Nat → Nat) (reg : Nat) : Nat :=
  ((s reg % 256) <<< 8) ||| (s (reg + 1) % 256)

/-- `set_shadow_reg` (main.c:324): `shadow[reg] = value >> 8;
shadow[reg + 1] = value & 0xff` with `value : uint16_t`. -/
def set_shadow_reg (s : Nat → Nat) (reg value : Nat) : Nat → Nat :=
  fun i => if i = reg then value / 256 % 256 else if i = reg + 1 then value % 256 else s i

/-- Externally observable actions of the embedded firmware paths. -/
inductive Event
  | busWrite (bytes : List Nat)
  | delay (ms : Nat)
  | led (brightness : Nat)
  | persist (channel : Nat)
  | sleep
  deriving DecidableEq

/-- `si4702_write_registers` (main.c:345): one bus transaction transmitting
the shadow bytes from offset `REGISTER_02` through `upto_reg + 1`, i.e.
`upto_reg - REGISTER_02 + 2` bytes. -/
def si4702_write_registers (s : Nat → Nat) (upto_reg : Nat) : Event :=
  Event.busWrite ((List.range (upto_reg - REGISTER_02 + 2)).map (fun i => s (REGISTER_02 + i) % 256))

/-- `tune_direct` (main.c:393): sets shadow register 3 to `0x8000 | 0x01ff`
(note: the literal `0x01ff`, not the requested channel), writes registers 2-3,
waits 160 ms, then stores `chan` (tune bit clear) and writes registers 2-3
again.  Returns the new shadow bank and the event trace. -/
def tune_direct (chan : Nat) (s : Nat → Nat) : (Nat → Nat) × List Event :=
  let s1 := set_shadow_reg s REGISTER_03 (0x8000 ||| 0x01ff)
  let s2 := set_shadow_reg s1 REGISTER_03 chan
  (s2, [si4702_write_registers s1 REGISTER_03, Event.delay 160,
        si4702_write_registers s2 REGISTER_03])

/-- `currentChanFromShadow` (main.c:412): `get_shadow_reg(REGISTER_03 & 0x1ff)`
- the mask is (inoperatively) applied to the register address, exactly as in
the source, so this returns the full 16-bit register value. -/
def currentChanFromShadow (s : Nat → Nat) : Nat :=
  get_shadow_reg s (REGISTER_03 &&& 0x1ff)

/-- `si4702_init` (main.c:548): the receiver init sequence.  Follows the
source statement by statement: oscillator enable (reg 7), power enable
(reg 2), de-emphasis (reg 4), band/spacing/volume (reg 5), tune with tune bit
set (reg 3), the final unmute store to reg 2 - written exactly as in the
source, `_BV(REG_02_DMUTE_BIT) | (REG_02_MONO_BIT) | _BV(REG_02_ENABLE_BIT)`,
i.e. `(1 <<< 14) ||| 13 ||| (1 <<< 1)` - and the final tune-bit-clear write of
registers 2-3. -/
def si4702_init (e : Nat → Nat) (s : Nat → Nat) : (Nat → Nat) × List Event :=
  let s1 := set_shadow_reg s REGISTER_07 0x8100
  let s2 := set_shadow_reg s1 REGISTER_02 (1 <<< 1)
  let s3 := set_shadow_reg s2 REGISTER_04
    (get_shadow_reg s2 REGISTER_04 ||| (if eeprom_read_byte e 1 ≠ 0 then 0x0800 else 0x0000))
  let s4 := set_shadow_reg s3 REGISTER_05
    (((eeprom_read_byte e 0 &&& 0x03) <<< 6) |||
     ((eeprom_read_byte e 2 &&& 0x03) <<< 4) |||
     (eeprom_read_byte e 5 &&& 0x0f))
  let chan := eeprom_read_word e 3
  let s5 := set_shadow_reg s4 REGISTER_03 (0x8000 ||| chan)
  let s6 := set_shadow_reg s5 REGISTER_02 ((1 <<< 14) ||| 13 ||| (1 <<< 1))
  let s7 := set_shadow_reg s6 REGISTER_03 chan
  (s7, [Event.delay 1, si4702_write_registers s1 REGISTER_07, Event.delay 600,
        si4702_write_registers s2 REGISTER_02, Event.delay 110,
        si4702_write_registers s4 REGISTER_05,
        si4702_write_registers s5 REGISTER_03, Event.delay 100,
        si4702_write_registers s7 REGISTER_03])

/-- `shutDown` (main.c:489): despite its documentation ("blink the LED
_count_ times ... then deep sleep forever"), the function body is empty - it
performs no LED, bus, or sleep action and simply returns. -/
def shutDown (blinkCount : Nat) : List Event :=
  []

/-- The boot path after factory-restore handling (main.c:1053-1070):
`if (!check_param_crc(EEPROM_WORKING)) { shutDown(...); } si4702_init();`.
In C, `!x` is true when `x == 0`, i.e. when the CRC is GOOD; and
`si4702_init` runs unconditionally after the `if`. -/
def bootCheck (e : Nat → Nat) (s : Nat → Nat) : (Nat → Nat) × List Event :=
  let pre := if check_param_crc e 0 = 0 then shutDown 3 else []
  let r := si4702_init e s
  (r.1, pre ++ r.2)

/-! ### Shadow bank round-trip (claim C8) -/

theorem set_shadow_reg_hi (s : Nat → Nat) (reg v : Nat) :
    set_shadow_reg s reg v reg = v / 256 % 256 := by
  unfold set_shadow_reg
  rw [if_pos rfl]

theorem set_shadow_reg_lo (s : Nat → Nat) (reg v : Nat) :
    set_shadow_reg s reg v (reg + 1) = v % 256 := by
  unfold set_shadow_reg
  rw [if_neg (by omega), if_pos rfl]

theorem set_shadow_reg_other (s : Nat → Nat) (reg v i : Nat)
    (h1 : i ≠ reg) (h2 : i ≠ reg + 1) :
    set_shadow_reg s reg v i = s i := by
  unfold set_shadow_reg
  rw [if_neg h1, if_neg h2]

theorem get_set_shadow_same (s : Nat → Nat) (o v : Nat) (hv : v < 65536) :
    get_shadow_reg (set_shadow_reg s o v) o = v := by
  unfold get_shadow_reg
  rw [set_shadow_reg_hi, set_shadow_reg_lo]
  rw [show v / 256 % 256 % 256 = v / 256 by omega,
    show v % 256 % 256 = v % 256 by omega, Nat.shiftLeft_eq,
    show v / 256 * 2 ^ 8 = 256 * (v / 256) by ring,
    or_low_byte _ _ (by omega)]
  omega

/-- The sixteen storage slots of the shadow bank are pairwise disjoint byte
pairs. -/
theorem regOffset_disjoint : ∀ a, a < 16 → ∀ b, b < 16 → b ≠ a →
    regOffset b ≠ regOffset a ∧ regOffset b ≠ regOffset a + 1 ∧
    regOffset b + 1 ≠ regOffset a ∧ regOffset b + 1 ≠ regOffset a + 1 := by
  decide

/-- C8: for every logical register address and 16-bit value, reading the
shadow bank right after writing it at the same logical address returns exactly
that value, and the two bytes of any other logical register are unchanged. -/
theorem shadow_reg_roundtrip (s : Nat → Nat) (a b v : Nat)
    (ha : a < 16) (hb : b < 16) (hne : b ≠ a) (hv : v < 65536) :
    get_shadow_reg (set_shadow_reg s (regOffset a) v) (regOffset a) = v ∧
    set_shadow_reg s (regOffset a) v (regOffset b) = s (regOffset b) ∧
    set_shadow_reg s (regOffset a) v (regOffset b + 1) = s (regOffset b + 1) := by
  obtain ⟨h1, h2, h3, h4⟩ := regOffset_disjoint a ha b hb hne
  refine ⟨get_set_shadow_same s _ v hv, ?_, ?_⟩ <;>
    simp [set_shadow_reg, h1, h2, h3, h4]

/-- C8 witness: write 0x1234 to logical register 0x3 of the zero bank; reading
it back yields 0x1234 and logical register 0xA's bytes are untouched. -/
theorem shadow_reg_roundtrip_witness :
    get_shadow_reg (set_shadow_reg (fun _ => 0) (regOffset 3) 0x1234) (regOffset 3) = 0x1234 ∧
    set_shadow_reg (fun _ => 0) (regOffset 3) 0x1234 (regOffset 10) = (fun _ => (0 : Nat)) (regOffset 10) ∧
    set_shadow_reg (fun _ => 0) (regOffset 3) 0x1234 (regOffset 10 + 1) = (fun _ => (0 : Nat)) (regOffset 10 + 1) :=
  shadow_reg_roundtrip (fun _ => 0) 3 10 0x1234 (by decide) (by decide) (by decide) (by decide)

/-! ### Receiver init final unmute value (claim C9) -/

/-- C9 (code bug): the final (unmute) value stored to shadow register 0x2 by
`si4702_init` - written in the source as
`_BV(REG_02_DMUTE_BIT) | (REG_02_MONO_BIT) | _BV(REG_02_ENABLE_BIT)`, the
`_BV()` missing on the mono bit - evaluates to 0x400F for every EEPROM and
shadow state: the mono-select bit 13 is NOT set, and the spurious low bits
0, 2, 3 are set, so the value differs from the specified
mute-disable | mono-select | power-enable = 0x6002. -/
theorem si4702_init_unmute_value (e s : Nat → Nat) :
    get_shadow_reg (si4702_init e s).1 REGISTER_02 = 0x400F ∧
    Nat.testBit 0x400F 13 = false ∧
    Nat.testBit 0x400F 0 = true ∧
    (0x400F : Nat) ≠ (1 <<< 14) ||| (1 <<< 13) ||| (1 <<< 1) := by
  refine ⟨?_, by decide, by decide, by decide⟩
  simp only [si4702_init, REGISTER_02, REGISTER_03, REGISTER_04, REGISTER_05,
    REGISTER_07, regOffset]
  unfold get_shadow_reg
  rw [set_shadow_reg_other _ _ _ _ (by decide) (by decide),
    set_shadow_reg_hi,
    set_shadow_reg_other _ _ _ _ (by decide) (by decide),
    set_shadow_reg_lo]
  decide

/-! ### Direct tuning (claim C2) -/

set_option maxRecDepth 40000 in
/-- C2 (code bug): `tune_direct(51)` on a zeroed shadow bank.  The first
(tune-enable) bus transaction transmits register 0x3 bytes 0x81 0xFF, i.e. the
value `0x8000 | 0x01ff` = 0x81FF - NOT `0x8000 | 51` = 0x8033 as the claim
states; the second transaction does carry channel 51 with the tune bit clear,
and no persistence event occurs. -/
theorem tune_direct_first_write_wrong_channel :
    (tune_direct 51 (fun _ => 0)).2 =
      [Event.busWrite [0, 0, 0x81, 0xFF], Event.delay 160,
       Event.busWrite [0, 0, 0, 51]] ∧
    (0x81 : Nat) * 256 + 0xFF = 0x8000 ||| 0x01FF ∧
    ((0x8000 : Nat) ||| 0x01FF) ≠ 0x8000 ||| 51 ∧
    (∀ c, Event.persist c ∉ (tune_direct 51 (fun _ => 0)).2) := by
  refine ⟨by decide, by decide, by decide, ?_⟩
  intro c
  rw [show (tune_direct 51 (fun _ => 0)).2 =
      [Event.busWrite [0, 0, 0x81, 0xFF], Event.delay 160,
       Event.busWrite [0, 0, 0, 51]] from by decide]
  simp

/-! ### Boot-time CRC validation (claim C1) -/

set_option maxRecDepth 100000 in
/-- C1 (code bug): boot with a working block whose CRC is wrong (byte 0 = 1,
all other bytes 0; its `check_param_crc` is 37057 ≠ 0).  The C code guards the
shutdown call with `if (!check_param_crc(...))`, which is true when the CRC is
GOOD, and `shutDown` has an empty body, so on a bad block the boot path emits
no blink and no deep sleep and proceeds straight into `si4702_init`, issuing
all five chip-init bus transactions. -/
theorem boot_badCRC_still_inits :
    check_param_crc (fun i => if i = 0 then 1 else 0) 0 = 37057 ∧
    shutDown 3 = ([] : List Event) ∧
    (bootCheck (fun i => if i = 0 then 1 else 0) (fun _ => 0)).2 =
      [Event.delay 1,
       Event.busWrite [0, 0, 0, 0, 0, 0, 0, 0, 0, 0, 0x81, 0],
       Event.delay 600,
       Event.busWrite [0, 2],
       Event.delay 110,
       Event.busWrite [0, 2, 0, 0, 0, 0, 0, 64],
       Event.busWrite [0, 2, 0x80, 0],
       Event.delay 100,
       Event.busWrite [64, 15, 0, 0]] ∧
    Event.sleep ∉ (bootCheck (fun i => if i = 0 then 1 else 0) (fun _ => 0)).2 := by
  refine ⟨by decide, rfl, by decide, ?_⟩
  rw [show (bootCheck (fun i => if i = 0 then 1 else 0) (fun _ => 0)).2 =
      [Event.delay 1,
       Event.busWrite [0, 0, 0, 0, 0, 0, 0, 0, 0, 0, 0x81, 0],
       Event.delay 600,
       Event.busWrite [0, 2],
       Event.delay 110,
       Event.busWrite [0, 2, 0, 0, 0, 0, 0, 64],
       Event.busWrite [0, 2, 0x80, 0],
       Event.delay 100,
       Event.busWrite [64, 15, 0, 0]] from by decide]
  simp

/-! ### Button gesture state machine (main.c:799-853) -/

def LONG_PRESS_MS : Nat := 2000

/-- The gesture timing loop (main.c:809-812):
`while (countdown && buttonDown()) { _delay_ms(1); countdown--; }`.
`button t` is the sampled pin state in millisecond tick `t`; the result is the
final value of `countdown` (non-zero classifies the press as short, zero as
long).  C's `&&` short-circuits, so when the countdown hits zero the button is
not sampled again. -/
def timingLoop (button : Nat → Bool) : Nat → Nat → Nat
  | 0, _ => 0
  | c + 1, t => if button t then timingLoop button c (t + 1) else c + 1

/-- The short-press channel step (main.c:818-827): `currentChan++` on a
`uint16_t`, then `if (currentChan > (1080-760)) currentChan = 0;`. -/
def shortPressNext (chan : Nat) : Nat :=
  if (chan + 1) % 65536 > 1080 - 760 then 0 else (chan + 1) % 65536

/-- `handleButtonDown` (main.c:799): LED off, debounce, read the entry channel
from the shadow bank, run the timing loop; a non-zero remaining countdown is a
short press (advance channel and `tune_direct`, no persistence), zero is a
long press (full-brightness flash, `update_channel` with the entry channel,
shadow untouched).  Returns (shadow bank, EEPROM, event trace). -/
def handleButtonDown (button : Nat → Bool) (s e : Nat → Nat) :
    (Nat → Nat) × (Nat → Nat) × List Event :=
  let currentChan := currentChanFromShadow s
  let countdown := timingLoop button LONG_PRESS_MS 0
  if countdown ≠ 0 then
    let r := tune_direct (shortPressNext currentChan) s
    (r.1, e, [Event.led 0, Event.delay 50] ++ r.2 ++ [Event.delay 50])
  else
    (s, update_channel e currentChan,
     [Event.led 0, Event.delay 50, Event.led 255, Event.persist currentChan,
      Event.delay 500, Event.led 0, Event.delay 50])

/-- If the button stays pressed for every sampled tick, the countdown runs out
and the loop returns 0 (long classification). -/
theorem timingLoop_pressed (button : Nat → Bool) :
    ∀ c t, (∀ k, k < c → button (t + k) = true) → timingLoop button c t = 0 := by
  intro c
  induction c with
  | zero => intro t _; rfl
  | succ n ih =>
    intro t h
    have hb : button t = true := by simpa using h 0 (Nat.succ_pos n)
    simp only [timingLoop, hb, if_true]
    exact ih (t + 1) (fun k hk => by
      rw [show t + 1 + k = t + (k + 1) by omega]
      exact h (k + 1) (by omega))

/-! ### Claim C3: short-press channel range -/

/-- C3 counterexample: starting from channel 319 (the top of the spec's
claimed 0-319 range), the short-press step yields 320, not the claimed wrap
to 0, and 320 is outside the claimed range. -/
theorem shortPress_319_escapes_range :
    shortPressNext 319 = 320 ∧ shortPressNext 319 ≠ 0 ∧ ¬ shortPressNext 319 ≤ 319 := by
  decide

/-- C3 amended: the code's wrap threshold is `1080 - 760` = 320, so the closed
range is 0-320: for every starting channel at most 320 the result stays at
most 320; below 320 the channel advances by one, and exactly at 320 it wraps
to 0. -/
theorem shortPress_wrap_in_code_range (c : Nat) (hc : c ≤ 320) :
    shortPressNext c ≤ 320 ∧ (c < 320 → shortPressNext c = c + 1) ∧
    (c = 320 → shortPressNext c = 0) := by
  unfold shortPressNext
  rw [Nat.mod_eq_of_lt (show c + 1 < 65536 by omega)]
  split <;> omega

/-- C3 witness: at the code's top of band, 320, the short press wraps to 0. -/
theorem shortPress_wrap_witness :
    shortPressNext 320 ≤ 320 ∧ (320 < 320 → shortPressNext 320 = 320 + 1) ∧
    (320 = 320 → shortPressNext 320 = 0) :=
  shortPress_wrap_in_code_range 320 (by decide)

/-! ### Claim C6: long-press tie-break -/

/-- C6: if the button is down at every sampled tick before the countdown
reaches zero and is released exactly in the tick in which it reaches zero
(tick 2000, which the loop never samples because `countdown && buttonDown()`
tests the countdown first), the classification is deterministically long and
`handleButtonDown` performs the save action (`update_channel`), not the scan
action. -/
theorem buttonTieBreak_long (button : Nat → Bool) (s e : Nat → Nat)
    (hpress : ∀ t, t < 2000 → button t = true) (hrel : button 2000 = false) :
    timingLoop button LONG_PRESS_MS 0 = 0 ∧
    handleButtonDown button s e =
      (s, update_channel e (currentChanFromShadow s),
       [Event.led 0, Event.delay 50, Event.led 255,
        Event.persist (currentChanFromShadow s), Event.delay 500, Event.led 0,
        Event.delay 50]) := by
  have h0 : timingLoop button LONG_PRESS_MS 0 = 0 :=
    timingLoop_pressed button 2000 0 (fun k hk => by
      rw [Nat.zero_add]; exact hpress k hk)
  refine ⟨h0, ?_⟩
  simp [handleButtonDown, h0]

/-- C6 witness: the concrete button trace pressed on ticks 0-1999, released on
tick 2000. -/
theorem buttonTieBreak_long_witness :
    timingLoop (fun t => decide (t < 2000)) LONG_PRESS_MS 0 = 0 ∧
    handleButtonDown (fun t => decide (t < 2000)) (fun _ => 0) (fun _ => 0) =
      ((fun _ => 0), update_channel (fun _ => 0) (currentChanFromShadow (fun _ => 0)),
       [Event.led 0, Event.delay 50, Event.led 255,
        Event.persist (currentChanFromShadow (fun _ => 0)), Event.delay 500,
        Event.led 0, Event.delay 50]) :=
  buttonTieBreak_long (fun t => decide (t < 2000)) (fun _ => 0) (fun _ => 0)
    (fun t ht => decide_eq_true ht) (by decide)

/-! ### Claim C7: long press persists the entry channel -/

/-- C7: whenever the timing loop classifies the press as long, the handler
leaves the shadow bank unchanged, persists (via `update_channel`) exactly the
channel value read from the shadow store at entry, and the full-brightness
`led 255` flash precedes the persistence event in the trace; the entry value
is `get_shadow_reg` at register 3's storage offset. -/
theorem longPress_persists_entry_channel (button : Nat → Bool) (s e : Nat → Nat)
    (hlong : timingLoop button LONG_PRESS_MS 0 = 0) :
    handleButtonDown button s e =
      (s, update_channel e (currentChanFromShadow s),
       [Event.led 0, Event.delay 50, Event.led 255,
        Event.persist (currentChanFromShadow s), Event.delay 500, Event.led 0,
        Event.delay 50]) ∧
    currentChanFromShadow s = get_shadow_reg s REGISTER_03 := by
  constructor
  · simp [handleButtonDown, hlong]
  · unfold currentChanFromShadow
    congr 1

/-- C7 witness: a button held down forever classifies long; the handler output
is the long-press result on the zero shadow bank and zero EEPROM. -/
theorem longPress_persists_entry_channel_witness :
    handleButtonDown (fun _ => true) (fun _ => 0) (fun _ => 0) =
      ((fun _ => 0), update_channel (fun _ => 0) (currentChanFromShadow (fun _ => 0)),
       [Event.led 0, Event.delay 50, Event.led 255,
        Event.persist (currentChanFromShadow (fun _ => 0)), Event.delay 500,
        Event.led 0, Event.delay 50]) ∧
    currentChanFromShadow (fun _ => 0) = get_shadow_reg (fun _ => 0) REGISTER_03 :=
  longPress_persists_entry_channel (fun _ => true) (fun _ => 0) (fun _ => 0)
    (timingLoop_pressed (fun _ => true) 2000 0 (fun _ _ => rfl))

/-! ### Programming packet (main.c:859-932) -/

/-- `readProgrammingPacket` (main.c:859), as a function of the four
`readPbyte()` results (an `int`: a byte value, or negative on failure) and the
EEPROM state.  Returns the C return value, the resulting EEPROM, and the list
of `update_channel` calls made.  Each read is checked for error first; the CRC
runs over the two channel bytes; the received CRC is big-endian in bytes 3-4;
on mismatch the packet is discarded with return -1, on match `update_channel`
is called once with the received channel. -/
def readProgrammingPacket (d0 d1 d2 d3 : Int) (e : Nat → Nat) :
    Int × (Nat → Nat) × List Nat :=
  if d0 < 0 then (d0, e, []) else
  let crc1 := crc16_update 0 d0.toNat
  let channel1 := (d0.toNat <<< 8) % 65536
  if d1 < 0 then (d1, e, []) else
  let crc2 := crc16_update crc1 d1.toNat
  let channel := (channel1 ||| d1.toNat) % 65536
  if d2 < 0 then (d2, e, []) else
  let crcRec1 := (d2.toNat <<< 8) % 65536
  if d3 < 0 then (d3, e, []) else
  let crcRec := (crcRec1 ||| d3.toNat) % 65536
  if crc2 ≠ crcRec then (-1, e, [])
  else (0, update_channel e channel, [channel])

/-- C10: if any of the four serial reads fails (negative result), the function
returns a negative value - the first failing read's value - immediately: the
EEPROM is untouched and no `update_channel` call is made. -/
theorem readProgrammingPacket_read_error (d0 d1 d2 d3 : Int) (e : Nat → Nat)
    (h : d0 < 0 ∨ d1 < 0 ∨ d2 < 0 ∨ d3 < 0) :
    (readProgrammingPacket d0 d1 d2 d3 e).1 < 0 ∧
    ((readProgrammingPacket d0 d1 d2 d3 e).1 = d0 ∨
     (readProgrammingPacket d0 d1 d2 d3 e).1 = d1 ∨
     (readProgrammingPacket d0 d1 d2 d3 e).1 = d2 ∨
     (readProgrammingPacket d0 d1 d2 d3 e).1 = d3) ∧
    (readProgrammingPacket d0 d1 d2 d3 e).2.1 = e ∧
    (readProgrammingPacket d0 d1 d2 d3 e).2.2 = [] := by
  by_cases h0 : d0 < 0
  · simp [readProgrammingPacket, h0]
  by_cases h1 : d1 < 0
  · simp [readProgrammingPacket, h0, h1]
  by_cases h2 : d2 < 0
  · simp [readProgrammingPacket, h0, h1, h2]
  by_cases h3 : d3 < 0
  · simp [readProgrammingPacket, h0, h1, h2, h3]
  · exact absurd h (by simp [h0, h1, h2, h3])

/-- C10 witness: the first read fails with -1; the packet is rejected and the
EEPROM (all zeros) is returned unchanged with no `update_channel` calls. -/
theorem readProgrammingPacket_read_error_witness :
    (readProgrammingPacket (-1) 0 0 0 (fun _ => 0)).1 < 0 ∧
    ((readProgrammingPacket (-1) 0 0 0 (fun _ => 0)).1 = -1 ∨
     (readProgrammingPacket (-1) 0 0 0 (fun _ => 0)).1 = 0 ∨
     (readProgrammingPacket (-1) 0 0 0 (fun _ => 0)).1 = 0 ∨
     (readProgrammingPacket (-1) 0 0 0 (fun _ => 0)).1 = 0) ∧
    (readProgrammingPacket (-1) 0 0 0 (fun _ => 0)).2.1 = (fun _ => 0) ∧
    (readProgrammingPacket (-1) 0 0 0 (fun _ => 0)).2.2 = [] :=
  readProgrammingPacket_read_error (-1) 0 0 0 (fun _ => 0) (Or.inl (by decide))

/-- C5: for a complete 4-byte packet (all reads in byte range), if the
received big-endian CRC does not equal the CRC-16 recomputed over the two
channel bytes, the packet is discarded with return -1 and the EEPROM is not
mutated in any byte; if it matches, exactly one `update_channel` call is made
with the received channel and the EEPROM becomes `update_channel` of it. -/
theorem readProgrammingPacket_crc_gate (d0 d1 d2 d3 : Int) (e : Nat → Nat)
    (h0 : 0 ≤ d0) (h0b : d0 < 256) (h1 : 0 ≤ d1) (h1b : d1 < 256)
    (h2 : 0 ≤ d2) (h2b : d2 < 256) (h3 : 0 ≤ d3) (h3b : d3 < 256) :
    (d2.toNat * 256 + d3.toNat ≠ crc16_update (crc16_update 0 d0.toNat) d1.toNat →
      readProgrammingPacket d0 d1 d2 d3 e = (-1, e, [])) ∧
    (d2.toNat * 256 + d3.toNat = crc16_update (crc16_update 0 d0.toNat) d1.toNat →
      readProgrammingPacket d0 d1 d2 d3 e =
        (0, update_channel e (d0.toNat * 256 + d1.toNat),
         [d0.toNat * 256 + d1.toNat])) := by
  have hn0 : ¬ d0 < 0 := by omega
  have hn1 : ¬ d1 < 0 := by omega
  have hn2 : ¬ d2 < 0 := by omega
  have hn3 : ¬ d3 < 0 := by omega
  have hcomb : ∀ x y : Int, 0 ≤ x → x < 256 → 0 ≤ y → y < 256 →
      ((x.toNat <<< 8) % 65536 ||| y.toNat) % 65536 = x.toNat * 256 + y.toNat := by
    intro x y hx hxb hy hyb
    have hxn : x.toNat < 256 := by omega
    have hyn : y.toNat < 256 := by omega
    rw [Nat.shiftLeft_eq, show (2 : Nat) ^ 8 = 256 by norm_num,
      Nat.mod_eq_of_lt (show x.toNat * 256 < 65536 by omega),
      show x.toNat * 256 = 256 * x.toNat by ring,
      or_low_byte _ _ hyn,
      Nat.mod_eq_of_lt (show 256 * x.toNat + y.toNat < 65536 by omega)]
  simp only [readProgrammingPacket, if_neg hn0, if_neg hn1, if_neg hn2, if_neg hn3,
    hcomb d0 d1 h0 h0b h1 h1b, hcomb d2 d3 h2 h2b h3 h3b]
  constructor
  · intro hne
    rw [if_pos (Ne.symm hne)]
  · intro heq
    rw [if_neg (not_ne_iff.mpr heq.symm)]

/-- C5 witness: bytes 1, 2 have CRC-16 20864 = 81*256 + 128; the theorem at
the packet (1, 2, 81, 128) gives both gate directions at a concrete input. -/
theorem readProgrammingPacket_crc_gate_witness :
    ((81 : Int).toNat * 256 + (128 : Int).toNat ≠
        crc16_update (crc16_update 0 (1 : Int).toNat) (2 : Int).toNat →
      readProgrammingPacket 1 2 81 128 (fun _ => 0) = (-1, (fun _ => 0), [])) ∧
    ((81 : Int).toNat * 256 + (128 : Int).toNat =
        crc16_update (crc16_update 0 (1 : Int).toNat) (2 : Int).toNat →
      readProgrammingPacket 1 2 81 128 (fun _ => 0) =
        (0, update_channel (fun _ => 0) ((1 : Int).toNat * 256 + (2 : Int).toNat),
         [(1 : Int).toNat * 256 + (2 : Int).toNat])) :=
  readProgrammingPacket_crc_gate 1 2 81 128 (fun _ => 0)
    (by decide) (by decide) (by decide) (by decide)
    (by decide) (by decide) (by decide) (by decide)
